import Mathlib

/-! Change-set verification in turbo-geth.

A shallow embedding of

* `cmd/integration/commands/state_stages.go`
  (`syncBySmallSteps`, `changeSetHook`, `checkChangeSet`, `checkHistory`), and
* `cmd/state/stateless/check_change_sets.go` (`CheckChangeSets`).

Go values of type `[]byte` are lists of bytes, `uint64` values are natural
numbers reduced modulo `2 ^ 64` wherever the source does arithmetic on them,
and a Go function returning `error` returns an `Outcome`, which also records a
run-time panic (index out of range, nil dereference) as a separate case.
Closures that update a captured variable (`i++`) become state-passing
functions.
-/

set_option autoImplicit false

namespace TurboGeth

/-! ## Data model -/

/-- A Go `[]byte`. -/
abbrev Bytes := List (Fin 256)

/-- One entry of `changeset.ChangeSet.Changes`. -/
structure Change where
  Key : Bytes
  Value : Bytes
deriving DecidableEq, Repr

/-- The `changeset.ChangeSet` struct (only the field the two files read). -/
structure ChangeSet where
  Changes : List Change
deriving DecidableEq, Repr

/-- Length of a change set, `(*ChangeSet).Len`. -/
def ChangeSet.Len (cs : ChangeSet) : Nat := cs.Changes.length

/-- What a Go call returning `error` can do: return `nil`, return an error
with a message, or panic at run time. -/
inductive Outcome where
  | success
  | error (msg : String)
  | panic (msg : String)
deriving DecidableEq, Repr

/-- The width of `uint64`. -/
def U64 : Nat := 2 ^ 64

/-- Unsigned 64-bit subtraction as Go performs it (wrapping). -/
def subU64 (a b : Nat) : Nat := (a + U64 - b % U64) % U64

/-- Unsigned 64-bit addition as Go performs it (wrapping). -/
def addU64 (a b : Nat) : Nat := (a + b) % U64

/-! ## `checkChangeSet` (state_stages.go) -/

/-- The persisted side that `checkChangeSet` reads through
`ethdb.WalkChangeSetByBlock`: for the flag `storage` and a block number, the
entries stored for that block, in store order. -/
structure ChangeSetDB where
  byBlock : Bool → Nat → List Change

/-- Modelled from the spec: `ethdb.WalkChangeSetByBlock` is not part of the two
files; it visits the persisted entries of one block and one category in order
and stops at the first visit that does not return `nil`. The visitor's captured
counter is threaded through as state. -/
def WalkChangeSetByBlock (db : ChangeSetDB) (storage : Bool) (blockNum : Nat)
    (walker : Nat → Bytes → Bytes → Nat × Outcome) (i : Nat) : Nat × Outcome :=
  go (db.byBlock storage blockNum) i
where
  /-- Visit the remaining entries. -/
  go : List Change → Nat → Nat × Outcome
    | [], i => (i, Outcome.success)
    | c :: rest, i =>
      match walker i c.Key c.Value with
      | (j, Outcome.success) => go rest j
      | (j, r) => (j, r)

/-- The body shared by the two closures of `checkChangeSet`: read
`expected.Changes[i]`, increment `i`, compare key and value with the persisted
pair. A `nil` change-set pointer or an index past the end panics. -/
def checkChangeSetWalker (expected : Option ChangeSet) (i : Nat) (k v : Bytes) :
    Nat × Outcome :=
  match expected with
  | none => (i, Outcome.panic "nil pointer dereference")
  | some cs =>
    match cs.Changes[i]? with
    | none => (i, Outcome.panic "index out of range")
    | some c =>
      if c.Key = k ∧ c.Value = v then (i + 1, Outcome.success)
      else (i + 1, Outcome.error "check change set failed")

/-- The function `checkChangeSet`: the counter `i` is set to `0` once and is
shared by the account walk and the storage walk. -/
def checkChangeSet (db : ChangeSetDB) (blockNum : Nat)
    (expectedAccountChanges expectedStorageChanges : Option ChangeSet) : Outcome :=
  let i := 0
  match WalkChangeSetByBlock db false blockNum
      (checkChangeSetWalker expectedAccountChanges) i with
  | (i, Outcome.success) =>
    match WalkChangeSetByBlock db true blockNum
        (checkChangeSetWalker expectedStorageChanges) i with
    | (_, Outcome.success) => Outcome.success
    | (_, r) => r
  | (_, r) => r

/-- The maps `expectedAccountChanges` and `expectedStorageChanges` of
`syncBySmallSteps`, keyed by block number. -/
structure ExpectedChanges where
  account : Nat → Option ChangeSet
  storage : Nat → Option ChangeSet

/-- The empty maps. -/
def ExpectedChanges.empty : ExpectedChanges := ⟨fun _ => none, fun _ => none⟩

/-- The closure `changeSetHook`: the account change set is always recorded, the
storage change set only when it is non-empty. -/
def changeSetHook (m : ExpectedChanges) (blockNum : Nat)
    (accountChanges storageChanges : ChangeSet) : ExpectedChanges :=
  let account := fun n => if n = blockNum then some accountChanges else m.account n
  if storageChanges.Len > 0 then
    ⟨account, fun n => if n = blockNum then some storageChanges else m.storage n⟩
  else
    ⟨account, m.storage⟩

/-- A store in which block `blockNum` holds exactly the given entries. -/
def persistedExactly (blockNum : Nat) (A S : List Change) : ChangeSetDB :=
  ⟨fun storage n => if n = blockNum then (if storage then S else A) else []⟩

/-! ## `checkHistory` (state_stages.go) -/

/-- An entry of the table `changeset.Mapper` (only the field `checkHistory`
reads). -/
structure MapperEntry where
  IndexBucket : String
deriving DecidableEq, Repr

/-- The declarations of packages `dbutils` and `changeset` that `checkHistory`
uses and that are declared outside the two files: the two bucket names, the
table `Mapper`, the two change-set decoders and the search on a history-index
chunk. They are parameters of the model. -/
structure HistoryDecls where
  AccountChangeSetBucket2 : String
  StorageChangeSetBucket2 : String
  Mapper : String → Option MapperEntry
  AccountChangeSetBytes : Bytes → List Change
  StorageChangeSetBytes : Bytes → List Change
  /-- The call `dbutils.WrapHistoryIndex(indexBytes).Search(blockNum)`. -/
  Search : Bytes → Nat → Nat × Bool × Bool

/-- The store as `checkHistory` reads it: the entries of a change-set bucket in
key order, each key given by the block number `dbutils.DecodeTimestamp` reads
from it, and the lookup `GetIndexChunk`. -/
structure HistoryDB where
  bucket : String → List (Nat × Bytes)
  GetIndexChunk : String → Bytes → Nat → Except String Bytes

/-- The local variable `walker` of `checkHistory`: `nil` until one of the two
`if` statements assigns a decoder to it. -/
def historyWalker (d : HistoryDecls) (changeSetBucket : String) :
    Option (Bytes → List Change) :=
  let walker : Option (Bytes → List Change) := none
  let walker := if d.AccountChangeSetBucket2 = changeSetBucket
    then some d.AccountChangeSetBytes else walker
  let walker := if d.StorageChangeSetBucket2 = changeSetBucket
    then some d.StorageChangeSetBytes else walker
  walker

/-- One hexadecimal digit, lower case. -/
def hexDigit (n : Nat) : Char :=
  ['0', '1', '2', '3', '4', '5', '6', '7', '8', '9', 'a', 'b', 'c', 'd', 'e', 'f'].getD n '0'

/-- The helper `common.Bytes2Hex` (declared outside the two files): two lower
case hexadecimal digits per byte, no prefix. -/
def Bytes2Hex (b : Bytes) : String :=
  String.mk (b.flatMap fun x => [hexDigit (x.val / 16), hexDigit (x.val % 16)])

/-- The text of `fmt.Errorf("%v,%v,%v", blockNum, findVal, common.Bytes2Hex(key))`. -/
def historyErrorText (blockNum findVal : Nat) (key : Bytes) : String :=
  toString blockNum ++ "," ++ toString findVal ++ "," ++ Bytes2Hex key

/-- The innermost closure of `checkHistory`, run for one key of one change
set. -/
def checkHistoryKey (d : HistoryDecls) (db : HistoryDB) (vv : MapperEntry)
    (blockNum : Nat) (key : Bytes) : Outcome :=
  match db.GetIndexChunk vv.IndexBucket key blockNum with
  | Except.error innerErr => Outcome.error innerErr
  | Except.ok indexBytes =>
    match d.Search indexBytes blockNum with
    | (findVal, _, ok) =>
      if !ok then Outcome.error (historyErrorText blockNum findVal key)
      else Outcome.success

/-- Modelled from the spec: the method `Walk` of a decoded change set is not
part of the two files; it visits the changes in order and stops at the first
visit that returns an error. -/
def walkChanges (f : Bytes → Bytes → Outcome) : List Change → Outcome
  | [] => Outcome.success
  | c :: rest =>
    match f c.Key c.Value with
    | Outcome.success => walkChanges f rest
    | r => r

/-- The closure `checkHistory` hands to `db.Walk`, run for one persisted entry:
calling a `nil` `walker` panics. The boolean is the visitor's first result. -/
def checkHistoryEntry (d : HistoryDecls) (db : HistoryDB) (vv : MapperEntry)
    (walker : Option (Bytes → List Change)) (blockNum : Nat) (v : Bytes) :
    Bool × Outcome :=
  match walker with
  | none => (false, Outcome.panic "call of nil function")
  | some w =>
    match walkChanges (fun key _ => checkHistoryKey d db vv blockNum key) (w v) with
    | Outcome.success => (true, Outcome.success)
    | err => (false, err)

/-- Modelled from the spec: the method `Walk` of the store is not part of the
two files; with `fixedbits = 0` it scans the bucket from the start key forward
and calls the visitor on each entry until the visitor returns an error or
`false`. -/
def dbWalk (db : HistoryDB) (bucket : String) (startBlock : Nat)
    (walker : Nat → Bytes → Bool × Outcome) : Outcome :=
  go ((db.bucket bucket).filter fun e => decide (startBlock ≤ e.1))
where
  /-- Visit the remaining entries. -/
  go : List (Nat × Bytes) → Outcome
    | [] => Outcome.success
    | e :: rest =>
      match walker e.1 e.2 with
      | (true, Outcome.success) => go rest
      | (false, Outcome.success) => Outcome.success
      | (_, r) => r

/-- The function `checkHistory`. -/
def checkHistory (d : HistoryDecls) (db : HistoryDB) (changeSetBucket : String)
    (blockNum : Nat) : Outcome :=
  let walker := historyWalker d changeSetBucket
  match d.Mapper changeSetBucket with
  | none => Outcome.error "unknown bucket type"
  | some vv =>
    dbWalk db changeSetBucket blockNum fun blockNum v =>
      checkHistoryEntry d db vv walker blockNum v

/-! ## The loop of `syncBySmallSteps` (state_stages.go) -/

/-- The stop block: the progress of the senders stage, or the flag `block` when
it is set and smaller. -/
def stopAtOf (block senderStageProgress : Nat) : Nat :=
  if block > 0 ∧ block < senderStageProgress then block else senderStageProgress

/-- The condition of the `for` loop. -/
def loopCondition (execProgress stopAt unwind unwindEvery : Nat) : Bool :=
  decide (execProgress < stopAt) || decide (unwind ≤ unwindEvery)

/-- The computation of `execToBlock` and the update of the flag `unwind` at the
top of the loop body; the result is `(execToBlock, unwind)`. -/
def execLimit (execAtBlock unwind unwindEvery stopAt : Nat) : Nat × Nat :=
  let execToBlock := addU64 (subU64 execAtBlock unwind) unwindEvery
  if execToBlock > stopAt then (addU64 stopAt 1, 0) else (execToBlock, unwind)

/-- The collaborators of the loop that are declared outside the two files, over
a state `σ`: the execution progress, the commit of the transaction at the top
of the body, the forward run with the execution stage bounded by `ToBlock`,
the unwind, and the checks of the persisted change sets and history made after
the forward run (given `execAtBlock`). -/
structure Pipeline (σ : Type) where
  progress : σ → Nat
  CommitAndBegin : σ → Outcome × σ
  Run : Nat → σ → Outcome × σ
  UnwindTo : Nat → σ → Outcome × σ
  check : Nat → σ → Outcome × σ

/-- What one iteration asked of the pipeline. -/
inductive Event where
  | forward (execToBlock : Nat)
  | unwindTo (target : Nat)
deriving DecidableEq, Repr

/-- The variables the loop carries: the pipeline state, the flag `unwind`, and
the requests made so far (oldest first). -/
structure LoopState (σ : Type) where
  st : σ
  unwind : Nat
  trace : List Event
deriving DecidableEq, Repr

/-- One run of the loop body after the cancellation test. -/
def loopBody {σ : Type} (p : Pipeline σ) (stopAt unwindEvery : Nat)
    (s : LoopState σ) : Outcome × LoopState σ :=
  match p.CommitAndBegin s.st with
  | (Outcome.success, st) =>
    let execAtBlock := p.progress st
    let (execToBlock, unwind) := execLimit execAtBlock s.unwind unwindEvery stopAt
    let trace := s.trace ++ [Event.forward execToBlock]
    match p.Run execToBlock st with
    | (Outcome.success, st) =>
      match p.check execAtBlock st with
      | (Outcome.success, st) =>
        if unwind = 0 then (Outcome.success, ⟨st, unwind, trace⟩)
        else
          let target := subU64 (p.progress st) unwind
          match p.UnwindTo target st with
          | (r, st) => (r, ⟨st, unwind, trace ++ [Event.unwindTo target]⟩)
      | (r, st) => (r, ⟨st, unwind, trace⟩)
    | (r, st) => (r, ⟨st, unwind, trace⟩)
  | (r, st) => (r, ⟨st, s.unwind, s.trace⟩)

/-- The loop of `syncBySmallSteps`, bounded by `fuel` iterations; `ctxDone n`
tells whether the context is cancelled when iteration `n` starts. The result is
`none` when the fuel runs out with the loop still running. -/
def syncLoop {σ : Type} (p : Pipeline σ) (stopAt unwindEvery : Nat)
    (ctxDone : Nat → Bool) : Nat → Nat → LoopState σ → Option (Outcome × LoopState σ)
  | 0, _, _ => none
  | fuel + 1, n, s =>
    if loopCondition (p.progress s.st) stopAt s.unwind unwindEvery then
      if ctxDone n then some (Outcome.success, s)
      else
        match loopBody p stopAt unwindEvery s with
        | (Outcome.success, s) => syncLoop p stopAt unwindEvery ctxDone fuel (n + 1) s
        | (r, s) => some (r, s)
    else some (Outcome.success, s)

/-- The pipeline of the scenario: the state is the execution progress, a
forward run advances it to the given limit, an unwind sets it to the unwind
target, and the commit and the checks pass. -/
def scenarioPipeline : Pipeline Nat where
  progress := fun st => st
  CommitAndBegin := fun st => (Outcome.success, st)
  Run := fun execToBlock _ => (Outcome.success, execToBlock)
  UnwindTo := fun target _ => (Outcome.success, target)
  check := fun _ st => (Outcome.success, st)

/-! ## `CheckChangeSets` (check_change_sets.go) -/

/-- The receipts a block's execution produces; their content is not inspected
by `CheckChangeSets`. -/
abbrev Receipts := List Nat

/-- A block as `CheckChangeSets` reads it: `block.NumberU64()` and
`block.Header().ReceiptHash`. -/
structure Block where
  NumberU64 : Nat
  ReceiptHash : Nat
deriving DecidableEq, Repr

/-- The write batch: every `rawdb.WriteReceipts` made on it (block number and
receipts, oldest first), its size in bytes, and how many of the writes have
been committed. -/
structure Batch where
  written : List (Nat × Receipts)
  BatchSize : Nat
  committed : Nat
deriving DecidableEq, Repr

/-- The batch `chainDb.NewBatch()` returns. -/
def Batch.new : Batch := ⟨[], 0, 0⟩

/-- The collaborators of `CheckChangeSets` that are declared outside the two
files. `setup` is the outcome of opening the history transaction and the block
chain; `runBlock` executes a block; `GetAccountChanges` and `GetStorageChanges`
are what the change-set writer of that block returns afterwards;
`sortChanges` is `sort.Sort` on a change set; `plainAccountChangeSet` and
`plainStorageChangeSet` are the entries `changeset.Walk` yields for a block
number; the remaining fields describe the batch and the interrupt channel
(`interruptCh n` tells whether the `select` after the block with index `n` of
the run receives the signal). -/
structure ReplayEnv where
  setup : Outcome
  GetBlockByNumber : Nat → Option Block
  IsByzantium : Nat → Bool
  runBlock : Block → Except String Receipts
  DeriveSha : Receipts → Nat
  GetAccountChanges : Block → Except String ChangeSet
  GetStorageChanges : Block → Except String (Option ChangeSet)
  sortChanges : ChangeSet → ChangeSet
  plainAccountChangeSet : Nat → List Change
  plainStorageChangeSet : Nat → List Change
  writeReceiptsErr : Nat → Option String
  receiptsSize : Receipts → Nat
  IdealBatchSize : Nat
  commitAndBeginErr : Nat → Option String
  commitErr : Option String
  interruptCh : Nat → Bool

/-- Modelled from the spec: `changeset.Walk` is not part of the two files; it
visits the persisted entries of the block in order, a visitor returning an
error aborts the scan with that error, a visitor returning `true` continues
the scan and `false` stops it. The visitor's captured counter is threaded
through as state. -/
def changesetWalk (entries : List Change)
    (walker : Nat → Bytes → Bytes → Nat × Bool × Outcome) (i : Nat) : Nat × Outcome :=
  match entries with
  | [] => (i, Outcome.success)
  | c :: rest =>
    match walker i c.Key c.Value with
    | (j, true, Outcome.success) => changesetWalk rest walker j
    | (j, false, Outcome.success) => (j, Outcome.success)
    | (j, _, r) => (j, r)

/-- The closure of the account walk: `(true, nil)` on a match and
`(false, error)` on a mismatch. -/
def accountVisitor (accountChanges : ChangeSet) (i : Nat) (k v : Bytes) :
    Nat × Bool × Outcome :=
  match accountChanges.Changes[i]? with
  | none => (i, false, Outcome.panic "index out of range")
  | some c =>
    if c.Key = k ∧ c.Value = v then (i + 1, true, Outcome.success)
    else (i + 1, false, Outcome.error "check change set failed")

/-- The closure of the storage walk: `(false, nil)` on a match and
`(true, error)` on a mismatch. -/
def storageVisitor (expectedStorageChanges : ChangeSet) (i : Nat) (k v : Bytes) :
    Nat × Bool × Outcome :=
  match expectedStorageChanges.Changes[i]? with
  | none => (i, false, Outcome.panic "index out of range")
  | some c =>
    if c.Key = k ∧ c.Value = v then (i + 1, false, Outcome.success)
    else (i + 1, true, Outcome.error "check change set failed")

/-- The block `if !nocheck { ... }` of the loop body. -/
def compareChangeSets (env : ReplayEnv) (blockNum : Nat) (block : Block) : Outcome :=
  match env.GetAccountChanges block with
  | Except.error err => Outcome.error err
  | Except.ok accountChanges =>
    let accountChanges := env.sortChanges accountChanges
    let i := 0
    match changesetWalk (env.plainAccountChangeSet blockNum)
        (accountVisitor accountChanges) i with
    | (_, Outcome.success) =>
      let i := 0
      match env.GetStorageChanges block with
      | Except.error err => Outcome.error err
      | Except.ok expectedStorageChanges =>
        let expectedStorageChanges :=
          match expectedStorageChanges with
          | none => ChangeSet.mk []
          | some cs => cs
        let expectedStorageChanges := env.sortChanges expectedStorageChanges
        (changesetWalk (env.plainStorageChangeSet blockNum)
          (storageVisitor expectedStorageChanges) i).2
    | (_, err) => err

/-- The block `if writeReceipts { ... }` of the loop body. -/
def writeBlockReceipts (env : ReplayEnv) (block : Block) (receipts : Receipts)
    (batch : Batch) : Outcome × Batch :=
  match env.writeReceiptsErr block.NumberU64 with
  | some err => (Outcome.error err, batch)
  | none =>
    let batch : Batch :=
      ⟨batch.written ++ [(block.NumberU64, receipts)],
        batch.BatchSize + env.receiptsSize receipts, batch.committed⟩
    if batch.BatchSize ≥ env.IdealBatchSize then
      match env.commitAndBeginErr block.NumberU64 with
      | some err => (Outcome.error err, batch)
      | none => (Outcome.success, ⟨batch.written, 0, batch.written.length⟩)
    else (Outcome.success, batch)

/-- The text of `fmt.Errorf("mismatched receipt headers for block %d", n)`. -/
def receiptErrorText (n : Nat) : String :=
  "mismatched receipt headers for block " ++ toString n

/-- The loop body of `CheckChangeSets` from `runBlock` up to, and not
including, `blockNum++`. -/
def checkBlock (env : ReplayEnv) (nocheck writeReceipts : Bool) (blockNum : Nat)
    (block : Block) (batch : Batch) : Outcome × Batch :=
  match env.runBlock block with
  | Except.error err1 => (Outcome.error err1, batch)
  | Except.ok receipts =>
    if env.IsByzantium block.NumberU64 ∧ env.DeriveSha receipts ≠ block.ReceiptHash then
      (Outcome.error (receiptErrorText block.NumberU64), batch)
    else
      match (if writeReceipts then writeBlockReceipts env block receipts batch
             else (Outcome.success, batch)) with
      | (Outcome.success, batch) =>
        if !nocheck then (compareChangeSets env blockNum block, batch)
        else (Outcome.success, batch)
      | (err, batch) => (err, batch)

/-- What a run of `CheckChangeSets` leaves: the returned error value, the
block number of the final log line ("next time specify --block"), which is
written only when the run returns `nil`, and the batch. -/
structure ReplayResult where
  outcome : Outcome
  blockNum : Nat
  batch : Batch
deriving DecidableEq, Repr

/-- The statements after the loop: the final commit when receipts are written,
and the final log line. -/
def finishReplay (env : ReplayEnv) (writeReceipts : Bool) (blockNum : Nat)
    (batch : Batch) : ReplayResult :=
  if writeReceipts then
    match env.commitErr with
    | some err => ⟨Outcome.error err, blockNum, batch⟩
    | none => ⟨Outcome.success, blockNum, ⟨batch.written, 0, batch.written.length⟩⟩
  else ⟨Outcome.success, blockNum, batch⟩

/-- The loop `for !interrupt { ... }`, bounded by `fuel` iterations; `n` counts
the blocks of the run processed so far. The result is `none` when the fuel runs
out with the loop still running. -/
def replayLoop (env : ReplayEnv) (nocheck writeReceipts : Bool) :
    Nat → Nat → Nat → Batch → Option ReplayResult
  | 0, _, _, _ => none
  | fuel + 1, n, blockNum, batch =>
    match env.GetBlockByNumber blockNum with
    | none => some (finishReplay env writeReceipts blockNum batch)
    | some block =>
      match checkBlock env nocheck writeReceipts blockNum block batch with
      | (Outcome.success, batch) =>
        let blockNum := addU64 blockNum 1
        if env.interruptCh n then some (finishReplay env writeReceipts blockNum batch)
        else replayLoop env nocheck writeReceipts fuel (n + 1) blockNum batch
      | (err, batch) => some ⟨err, blockNum, batch⟩

/-- The function `CheckChangeSets`, from the opening of the stores on. -/
def CheckChangeSets (env : ReplayEnv) (fuel : Nat) (blockNum : Nat)
    (nocheck writeReceipts : Bool) : Option ReplayResult :=
  match env.setup with
  | Outcome.success => replayLoop env nocheck writeReceipts fuel 0 blockNum Batch.new
  | err => some ⟨err, blockNum, Batch.new⟩

/-- The batch after the blocks `b, b + 1, ..., b + k - 1` have each been found
and processed without error, starting from `batch`; `none` when one of them is
missing or fails. -/
def processBlocks (env : ReplayEnv) (nocheck writeReceipts : Bool) :
    Nat → Nat → Batch → Option Batch
  | 0, _, batch => some batch
  | k + 1, b, batch =>
    match env.GetBlockByNumber b with
    | none => none
    | some block =>
      match checkBlock env nocheck writeReceipts b block batch with
      | (Outcome.success, batch) => processBlocks env nocheck writeReceipts k (addU64 b 1) batch
      | _ => none

/-- Byte-wise order of two byte strings, `bytes.Compare(a, b) <= 0`. -/
def bytesLe : Bytes → Bytes → Bool
  | [], _ => true
  | _ :: _, [] => false
  | x :: xs, y :: ys => if x < y then true else if y < x then false else bytesLe xs ys

/-- Insert a change into a list ordered by key. -/
def insertByKey (c : Change) : List Change → List Change
  | [] => [c]
  | d :: rest => if bytesLe c.Key d.Key then c :: d :: rest else d :: insertByKey c rest

/-- A `sort.Sort` for change sets: the changes ordered by key. -/
def sortByKey (cs : ChangeSet) : ChangeSet :=
  ⟨cs.Changes.foldr insertByKey []⟩

/-! ## Reference formulas and concrete inputs -/

/-- The limit as the specification words it, over the integers:
`min (max (P - D + S) P) Z`. -/
def specLimit (P D S Z : Nat) : Int :=
  min (max ((P : Int) - D + S) P) Z

/-- The three iterations the specification's scenario lists for stop block 10,
unwind depth 3 and step 5. -/
def specScenarioTrace : List Event :=
  [Event.forward 5, Event.forward 10, Event.unwindTo 7, Event.forward 10]

/-- Whether the history index has no entry for key `K` at block `N`: the chunk
is read and the search for `N` reports not found. -/
def indexMissing (d : HistoryDecls) (db : HistoryDB) (vv : MapperEntry) (N : Nat)
    (K : Bytes) : Bool :=
  match db.GetIndexChunk vv.IndexBucket K N with
  | Except.ok indexBytes => !(d.Search indexBytes N).2.2
  | Except.error _ => false

/-- The first component of the search result for key `K` at block `N`. -/
def searchValue (d : HistoryDecls) (db : HistoryDB) (vv : MapperEntry) (N : Nat)
    (K : Bytes) : Nat :=
  match db.GetIndexChunk vv.IndexBucket K N with
  | Except.ok indexBytes => (d.Search indexBytes N).1
  | Except.error _ => 0

/-- Whether the chunk lookup for key `K` at block `N` fails. -/
def lookupFails (db : HistoryDB) (vv : MapperEntry) (N : Nat) (K : Bytes) : Bool :=
  match db.GetIndexChunk vv.IndexBucket K N with
  | Except.ok _ => false
  | Except.error _ => true

/-- Whether a scan ends at the pair `(N, K)`: its lookup fails or its index
entry is missing. -/
def stopsAt (d : HistoryDecls) (db : HistoryDB) (vv : MapperEntry) (N : Nat)
    (K : Bytes) : Bool :=
  lookupFails db vv N K || indexMissing d db vv N K

/-- The pairs whose chunk a scan over `keys` looks up: every pair up to, and
including, the first one at which the scan ends. -/
def lookupsMade (d : HistoryDecls) (db : HistoryDB) (vv : MapperEntry) :
    List (Nat × Bytes) → List (Nat × Bytes)
  | [] => []
  | p :: rest =>
    if stopsAt d db vv p.1 p.2 then [p] else p :: lookupsMade d db vv rest

/-- The outcome of a scan over `keys`, whether or not lookups fail: success
when the scan ends nowhere, otherwise what the innermost closure returns at
the first pair where it ends. -/
def scanOutcome (d : HistoryDecls) (db : HistoryDB) (vv : MapperEntry)
    (keys : List (Nat × Bytes)) : Outcome :=
  match keys.find? fun p => stopsAt d db vv p.1 p.2 with
  | none => Outcome.success
  | some p => checkHistoryKey d db vv p.1 p.2

/-- The decoder that belongs to a handled bucket: the storage decoder for the
storage bucket, the account decoder for the account bucket. -/
def bucketDecoder (d : HistoryDecls) (bucket : String) : Bytes → List Change :=
  if d.StorageChangeSetBucket2 = bucket then d.StorageChangeSetBytes
  else d.AccountChangeSetBytes

/-- The pairs (block, key) of a bucket in scan order, from block `start` on,
the stored values decoded by `w`. -/
def scannedKeys (db : HistoryDB) (w : Bytes → List Change) (bucket : String)
    (start : Nat) : List (Nat × Bytes) :=
  ((db.bucket bucket).filter fun e => decide (start ≤ e.1)).flatMap
    fun e => (w e.2).map fun c => (e.1, c.Key)

/-- The verdict the specification asks for on a list of (block, key) pairs:
success when no pair lacks its index entry, otherwise the error for the first
pair that does. -/
def historyVerdict (d : HistoryDecls) (db : HistoryDB) (vv : MapperEntry)
    (keys : List (Nat × Bytes)) : Outcome :=
  match keys.find? fun p => indexMissing d db vv p.1 p.2 with
  | none => Outcome.success
  | some p => Outcome.error (historyErrorText p.1 (searchValue d db vv p.1 p.2) p.2)

/-- A decoder for concrete inputs: the stored value is a sequence of one-byte
keys, each followed by a one-byte value. -/
def pairsOf : Bytes → List Change
  | k :: v :: rest => ⟨[k], [v]⟩ :: pairsOf rest
  | _ => []

/-- A second decoder for concrete inputs: the stored value is a sequence of
two-byte keys, each followed by a one-byte value. -/
def triplesOf : Bytes → List Change
  | k₁ :: k₂ :: v :: rest => ⟨[k₁, k₂], [v]⟩ :: triplesOf rest
  | _ => []

/-- Modelled from the spec: the search on a history-index chunk is not part of
the two files; it looks for an exact match of the block number in the chunk
and reports found only when the chunk holds that block number. In this concrete
form a chunk lists one block number per byte. -/
def searchExact (indexBytes : Bytes) (blockNum : Nat) : Nat × Bool × Bool :=
  match indexBytes.find? fun b => decide (b.val = blockNum) with
  | some b => (b.val, false, true)
  | none => (0, false, false)

/-- Concrete declarations: the two handled buckets, a `Mapper` that also lists
a third bucket, the decoder `pairsOf` for account change sets, the decoder
`triplesOf` for storage change sets, and the search `searchExact`. -/
def sampleDecls : HistoryDecls where
  AccountChangeSetBucket2 := "ACS2"
  StorageChangeSetBucket2 := "SCS2"
  Mapper := fun b =>
    if b = "ACS2" then some ⟨"hAT"⟩
    else if b = "SCS2" then some ⟨"hST"⟩
    else if b = "PLAIN-ACS" then some ⟨"hAT"⟩
    else none
  AccountChangeSetBytes := pairsOf
  StorageChangeSetBytes := triplesOf
  Search := searchExact

/-- A store whose account bucket holds, at block `n`, the change set
`[(aa, 01)]`, and whose history index is empty. -/
def storeWithChangeAt (n : Nat) : HistoryDB where
  bucket := fun b => if b = "ACS2" ∨ b = "PLAIN-ACS" then [(n, [0xAA, 0x01])] else []
  GetIndexChunk := fun _ _ _ => Except.ok []

/-- A store for the scenario of a missing index entry. The account bucket
holds the key `dd` at block 3 and the keys `aa` and `cc`, in this order, at
block 5; the storage bucket holds the key `0a0b` at block 5. The chunks of the
keys `aa` and `0a0b` are found and are empty; every other chunk lookup
fails. -/
def scenarioStore : HistoryDB where
  bucket := fun b =>
    if b = "ACS2" then [(3, [0xDD, 0x01]), (5, [0xAA, 0x01, 0xCC, 0x02])]
    else if b = "SCS2" then [(5, [0x0A, 0x0B, 0x01])]
    else []
  GetIndexChunk := fun _ key _ =>
    if key = [0xAA] ∨ key = [0x0A, 0x0B] then Except.ok []
    else Except.error "chunk not found"

/-- A concrete replay environment with the blocks 1, 2 and 3. The recomputed
receipt digest of block `n` is `100 + n`; the headers of blocks 1 and 3 record
that digest and the header of block 2 records 0. Blocks from `byzantiumBlock` on
are Byzantium blocks. Re-execution captures the account changes
`[(02, 01), (01, 01)]` (sorted before comparison) and the storage changes
`[(01, 01), (02, 02)]`; the store holds the same account entries in key order
for every block, the same storage entries for blocks 1 and 2, and
`[(01, 01), (02, ff)]` for block 3. The final commit fails with `commitErr`
when that is set, and the interrupt arrives after the block with index
`interruptIndex` of the run. -/
def sampleEnv (byzantiumBlock : Nat) (commitErr : Option String)
    (interruptIndex : Nat) : ReplayEnv where
  setup := Outcome.success
  GetBlockByNumber := fun n =>
    if n = 1 then some ⟨1, 101⟩
    else if n = 2 then some ⟨2, 0⟩
    else if n = 3 then some ⟨3, 103⟩
    else none
  IsByzantium := fun n => decide (byzantiumBlock ≤ n)
  runBlock := fun block => Except.ok [block.NumberU64]
  DeriveSha := fun receipts => 100 + receipts.sum
  GetAccountChanges := fun _ => Except.ok ⟨[⟨[2], [1]⟩, ⟨[1], [1]⟩]⟩
  GetStorageChanges := fun _ => Except.ok (some ⟨[⟨[1], [1]⟩, ⟨[2], [2]⟩]⟩)
  sortChanges := sortByKey
  plainAccountChangeSet := fun _ => [⟨[1], [1]⟩, ⟨[2], [1]⟩]
  plainStorageChangeSet := fun n =>
    if n = 3 then [⟨[1], [1]⟩, ⟨[2], [0xFF]⟩] else [⟨[1], [1]⟩, ⟨[2], [2]⟩]
  writeReceiptsErr := fun _ => none
  receiptsSize := fun receipts => receipts.length
  IdealBatchSize := 2
  commitAndBeginErr := fun _ => none
  commitErr := commitErr
  interruptCh := fun n => decide (n = interruptIndex)

/-! ## Theorems: `checkChangeSet` -/

/-- C1 (defect in the code). Block 7 captured the account change set
`[(01, 01)]` and the storage change set `[(02, 02)]` through `changeSetHook`,
and the store holds exactly these entries for block 7; `checkChangeSet` does
not return success: the counter left at 1 by the account walk is used by the
storage walk, whose first read `Changes[1]` is out of range. -/
theorem checkChangeSet_identical_nonempty_panics :
    checkChangeSet (persistedExactly 7 [⟨[1], [1]⟩] [⟨[2], [2]⟩]) 7
      ((changeSetHook ExpectedChanges.empty 7 ⟨[⟨[1], [1]⟩]⟩ ⟨[⟨[2], [2]⟩]⟩).account 7)
      ((changeSetHook ExpectedChanges.empty 7 ⟨[⟨[1], [1]⟩]⟩ ⟨[⟨[2], [2]⟩]⟩).storage 7)
      = Outcome.panic "index out of range" := by
  decide

/-- C2 (defect in the code). With expected account changes `[(aa, 01)]` and no
persisted account entry for the block, `checkChangeSet` returns success; with
no expected account change and the persisted entry `(aa, 01)`, it panics on
`Changes[0]` instead of returning an error. -/
theorem checkChangeSet_length_mismatch_undetected :
    checkChangeSet (persistedExactly 7 [] []) 7 (some ⟨[⟨[0xAA], [0x01]⟩]⟩) none
      = Outcome.success ∧
    checkChangeSet (persistedExactly 7 [⟨[0xAA], [0x01]⟩] []) 7 (some ⟨[]⟩) none
      = Outcome.panic "index out of range" := by
  decide

/-- A walk over persisted entries equal to the expected ones, started at their
offset, succeeds and leaves the counter after them. -/
theorem walk_matching (pre : List Change) :
    ∀ (l post : List Change) (i : Nat), i + l.length + post.length = pre.length →
      pre.drop i = l ++ post →
      WalkChangeSetByBlock.go (checkChangeSetWalker (some ⟨pre⟩)) l i
        = (i + l.length, Outcome.success) := by
  intro l
  induction l with
  | nil => intro post i _ _; rfl
  | cons c rest ih =>
    intro post i hlen hdrop
    have hi : i < pre.length := by simp only [List.length_cons] at hlen; omega
    have hget : pre[i]? = some c := by
      have h1 : (pre.drop i)[0]? = some c := by rw [hdrop]; simp
      rw [List.getElem?_drop] at h1
      simpa using h1
    unfold WalkChangeSetByBlock.go
    simp only [checkChangeSetWalker, hget, and_self, if_true]
    have hdrop' : pre.drop (i + 1) = rest ++ post := by
      have h2 : pre.drop (i + 1) = (pre.drop i).drop 1 := by
        rw [List.drop_drop]
      rw [h2, hdrop]
      rfl
    rw [ih post (i + 1) (by simp only [List.length_cons] at hlen; omega) hdrop']
    simp only [List.length_cons]
    congr 1
    omega

/-- When no storage entry is persisted for the block and the persisted account
entries are exactly the captured ones, `checkChangeSet` returns success. -/
theorem checkChangeSet_accounts_only (blockNum : Nat) (A : List Change)
    (expectedStorageChanges : Option ChangeSet) :
    checkChangeSet (persistedExactly blockNum A []) blockNum (some ⟨A⟩)
      expectedStorageChanges = Outcome.success := by
  have hA := walk_matching A A [] 0 (by simp) (by simp)
  unfold checkChangeSet WalkChangeSetByBlock
  simp only [persistedExactly, if_true, Bool.false_eq_true, if_false, hA]
  rfl

/-- When both captured change sets are non-empty, the storage one not longer
than the account one, and the store holds exactly them, `checkChangeSet`
panics on the first storage entry. -/
theorem checkChangeSet_shared_counter_panics (blockNum : Nat) (A S : List Change)
    (hS : S ≠ []) (hlen : S.length ≤ A.length) :
    checkChangeSet (persistedExactly blockNum A S) blockNum (some ⟨A⟩) (some ⟨S⟩)
      = Outcome.panic "index out of range" := by
  have hA := walk_matching A A [] 0 (by simp) (by simp)
  obtain ⟨c, rest, rfl⟩ := List.exists_cons_of_ne_nil hS
  have hnone : (c :: rest)[0 + A.length]? = none := by
    rw [List.getElem?_eq_none_iff]
    omega
  unfold checkChangeSet WalkChangeSetByBlock
  simp only [persistedExactly, if_true, Bool.false_eq_true, if_false, hA]
  unfold WalkChangeSetByBlock.go
  simp only [checkChangeSetWalker, hnone]

/-! ## Theorems: the loop of `syncBySmallSteps` -/

/-- Wrapping subtraction followed by wrapping addition is one reduction modulo
`2 ^ 64`. -/
theorem addU64_subU64 (P D S : Nat) (hD : D < U64) :
    addU64 (subU64 P D) S = (P + U64 - D + S) % U64 := by
  unfold addU64 subU64
  rw [Nat.mod_eq_of_lt hD, Nat.add_mod, Nat.mod_mod, ← Nat.add_mod]

/-- C4 (counterexample). From progress 10 with unwind depth 0, step 5 and stop
block 10 the limit handed to the execution stage is 11, above the stop block
and different from `min (max (P - D + S) P) Z = 10`; from progress 10 with
unwind depth 5, step 3 and stop block 100 it is 8, below the progress. -/
theorem execLimit_not_specLimit :
    (execLimit 10 0 5 10).1 = 11 ∧ specLimit 10 0 5 10 = 10 ∧
    (execLimit 10 5 3 100).1 = 8 ∧ specLimit 10 5 3 100 = 10 := by
  decide

/-- C4 (amended). For unsigned 64-bit `D` and `Z` and any `P` and `S`, with
`L = (P - D + S) mod 2 ^ 64`: the limit is `L` and the unwind depth is kept
when `L ≤ Z`; the limit is `Z + 1` and the unwind depth becomes 0 when
`L > Z`; the limit never exceeds `Z + 1`; and when `D ≤ S` and
`P - D + S ≤ Z` the limit equals `min (max (P - D + S) P) Z` and lies between
`P` and `Z`. -/
theorem execLimit_amended (P D S Z : Nat) (hD : D < U64) (hZ : Z < U64) :
    ((P + U64 - D + S) % U64 ≤ Z →
      execLimit P D S Z = ((P + U64 - D + S) % U64, D)) ∧
    (Z < (P + U64 - D + S) % U64 → execLimit P D S Z = (Z + 1, 0)) ∧
    (execLimit P D S Z).1 ≤ Z + 1 ∧
    (D ≤ S → P + S - D ≤ Z →
      ((execLimit P D S Z).1 : Int) = specLimit P D S Z ∧
      P ≤ (execLimit P D S Z).1 ∧ (execLimit P D S Z).1 ≤ Z) := by
  have hL := addU64_subU64 P D S hD
  have hexec : execLimit P D S Z =
      if (P + U64 - D + S) % U64 > Z then (addU64 Z 1, 0)
      else ((P + U64 - D + S) % U64, D) := by
    unfold execLimit
    simp only [hL]
  have hLlt : (P + U64 - D + S) % U64 < U64 := Nat.mod_lt _ (by unfold U64; norm_num)
  have hsmall : D ≤ S → P + S - D ≤ Z → (P + U64 - D + S) % U64 = P + S - D := by
    intro hDS hle
    have h1 : P + U64 - D + S = (P + S - D) + U64 := by omega
    rw [h1, Nat.add_mod_right]
    exact Nat.mod_eq_of_lt (by omega)
  by_cases h : Z < (P + U64 - D + S) % U64
  · have hZ1 : addU64 Z 1 = Z + 1 := by
      unfold addU64
      exact Nat.mod_eq_of_lt (by omega)
    rw [hexec, if_pos h, hZ1]
    refine ⟨fun h' => absurd h (by omega), fun _ => rfl, le_refl _, ?_⟩
    intro hDS hle
    have := hsmall hDS hle
    omega
  · rw [hexec, if_neg h]
    refine ⟨fun _ => rfl, fun h' => absurd h' h, by simp only; omega, ?_⟩
    intro hDS hle
    have hval := hsmall hDS hle
    simp only [hval]
    refine ⟨?_, by omega, hle⟩
    unfold specLimit
    have e1 : ((P + S - D : Nat) : Int) = (P : Int) - D + S := by omega
    rw [e1]
    have e2 : max ((P : Int) - D + S) P = (P : Int) - D + S := max_eq_left (by omega)
    rw [e2]
    exact (min_eq_left (by omega)).symm

/-- C4 (amended), at a concrete input: progress 7, unwind depth 3, step 5, stop
block 10. -/
theorem execLimit_amended_witness :
    ((7 + U64 - 3 + 5) % U64 ≤ 10 →
      execLimit 7 3 5 10 = ((7 + U64 - 3 + 5) % U64, 3)) ∧
    (10 < (7 + U64 - 3 + 5) % U64 → execLimit 7 3 5 10 = (10 + 1, 0)) ∧
    (execLimit 7 3 5 10).1 ≤ 10 + 1 ∧
    (3 ≤ 5 → 7 + 5 - 3 ≤ 10 →
      ((execLimit 7 3 5 10).1 : Int) = specLimit 7 3 5 10 ∧
      7 ≤ (execLimit 7 3 5 10).1 ∧ (execLimit 7 3 5 10).1 ≤ 10) :=
  execLimit_amended 7 3 5 10 (by decide) (by decide)

/-- The loop condition with unwind depth 0. -/
theorem loopCondition_true_of_unwind_zero_aux (execProgress stopAt unwindEvery : Nat) :
    loopCondition execProgress stopAt 0 unwindEvery = true := by
  simp [loopCondition]

/-- C5 (defect in the code). Once the unwind depth is 0 the loop condition is
true whatever the progress, the stop block and the step are, because
`0 <= unwindEvery` holds for every unsigned step. -/
theorem loopCondition_true_of_unwind_zero (execProgress stopAt unwindEvery : Nat) :
    loopCondition execProgress stopAt 0 unwindEvery = true := by
  simp [loopCondition]

/-- With unwind depth 0 the computation of the limit leaves the depth at 0. -/
theorem execLimit_unwind_zero (P S Z : Nat) : (execLimit P 0 S Z).2 = 0 := by
  unfold execLimit
  simp only
  split <;> rfl

/-- With unwind depth 0, no cancellation, and a pipeline whose commits, forward
runs and checks succeed, the loop does not return, whatever fuel it is given. -/
theorem syncLoop_unwind_zero_never_returns {σ : Type} (p : Pipeline σ)
    (stopAt unwindEvery : Nat)
    (hcommit : ∀ st, (p.CommitAndBegin st).1 = Outcome.success)
    (hrun : ∀ t st, (p.Run t st).1 = Outcome.success)
    (hcheck : ∀ a st, (p.check a st).1 = Outcome.success) :
    ∀ (fuel n : Nat) (st : σ) (tr : List Event),
      syncLoop p stopAt unwindEvery (fun _ => false) fuel n ⟨st, 0, tr⟩ = none := by
  intro fuel
  induction fuel with
  | zero => intro n st tr; rfl
  | succ fuel ih =>
    intro n st tr
    have hbody : ∃ st' tr', loopBody p stopAt unwindEvery ⟨st, 0, tr⟩
        = (Outcome.success, ⟨st', 0, tr'⟩) := by
      unfold loopBody
      rcases h1 : p.CommitAndBegin st with ⟨r1, st1⟩
      have e1 : r1 = Outcome.success := by simpa [h1] using hcommit st
      subst e1
      simp only
      rcases h0 : execLimit (p.progress st1) 0 unwindEvery stopAt with ⟨lim, u⟩
      have hu : u = 0 := by
        have := execLimit_unwind_zero (p.progress st1) unwindEvery stopAt
        rw [h0] at this
        exact this
      subst hu
      simp only
      rcases h2 : p.Run lim st1 with ⟨r2, st2⟩
      have e2 : r2 = Outcome.success := by simpa [h2] using hrun lim st1
      subst e2
      simp only
      rcases h3 : p.check (p.progress st1) st2 with ⟨r3, st3⟩
      have e3 : r3 = Outcome.success := by simpa [h3] using hcheck (p.progress st1) st2
      subst e3
      exact ⟨st3, tr ++ [Event.forward lim], by simp⟩
    obtain ⟨st', tr', hb⟩ := hbody
    unfold syncLoop
    simp only [loopCondition_true_of_unwind_zero_aux, if_true, Bool.false_eq_true, if_false, hb]
    exact ih (n + 1) st' tr'

/-- C6 (counterexample). With stop block 10, unwind depth 3, step 5 and
starting progress 0 in the scenario's pipeline model, the loop, cancelled when
its fourth iteration starts, has not made the three iterations the scenario
lists: the first forward run is bounded by block 2, not 5, and the unwind depth
is still 3 after the third iteration. -/
theorem scenario_trace_differs :
    syncLoop scenarioPipeline 10 5 (fun n => decide (n = 3)) 4 0 ⟨0, 3, []⟩
      = some (Outcome.success, ⟨18446744073709551613, 3,
          [Event.forward 2, Event.unwindTo 18446744073709551615,
            Event.forward 1, Event.unwindTo 18446744073709551614,
            Event.forward 0, Event.unwindTo 18446744073709551613]⟩) ∧
    [Event.forward 2, Event.unwindTo 18446744073709551615,
      Event.forward 1, Event.unwindTo 18446744073709551614,
      Event.forward 0, Event.unwindTo 18446744073709551613] ≠ specScenarioTrace := by
  decide

/-- C6 (amended). With stop block 10, unwind depth 3, step 5 and starting
progress 0 in the scenario's pipeline model, the loop performs exactly:
iteration 1 forward to block 2 followed by an unwind to block `2 ^ 64 - 1`
(2 - 3, wrapped); iteration 2 forward to block 1 followed by an unwind to block
`2 ^ 64 - 2`; iteration 3 forward to block 0 followed by an unwind to block
`2 ^ 64 - 3`, the unwind depth still being 3; iteration 4 forward to block 11
with the unwind depth forced to 0 and no further unwind. The first equation is
the loop cancelled when iteration 4 starts, the second the loop cancelled when
iteration 5 starts. -/
theorem scenario_amended :
    syncLoop scenarioPipeline 10 5 (fun n => decide (n = 3)) 4 0 ⟨0, 3, []⟩
      = some (Outcome.success, ⟨2 ^ 64 - 3, 3,
          [Event.forward 2, Event.unwindTo (2 ^ 64 - 1),
            Event.forward 1, Event.unwindTo (2 ^ 64 - 2),
            Event.forward 0, Event.unwindTo (2 ^ 64 - 3)]⟩) ∧
    syncLoop scenarioPipeline 10 5 (fun n => decide (n = 4)) 5 0 ⟨0, 3, []⟩
      = some (Outcome.success, ⟨11, 0,
          [Event.forward 2, Event.unwindTo (2 ^ 64 - 1),
            Event.forward 1, Event.unwindTo (2 ^ 64 - 2),
            Event.forward 0, Event.unwindTo (2 ^ 64 - 3),
            Event.forward 11]⟩) := by
  decide

/-! ## Theorems: `checkHistory` -/

/-- The innermost closure returns success exactly where the scan does not
end. -/
theorem checkHistoryKey_success_iff (d : HistoryDecls) (db : HistoryDB) (vv : MapperEntry)
    (N : Nat) (K : Bytes) :
    checkHistoryKey d db vv N K = Outcome.success ↔ stopsAt d db vv N K = false := by
  unfold checkHistoryKey stopsAt lookupFails indexMissing
  cases hl : db.GetIndexChunk vv.IndexBucket K N with
  | error e => simp
  | ok ib =>
    simp only
    cases hs : (d.Search ib N).2.2 <;> simp [hs]

/-- Where the lookup succeeds and the index entry is missing, the innermost
closure returns the error built from the block number, the search value and
the key. -/
theorem checkHistoryKey_of_missing (d : HistoryDecls) (db : HistoryDB) (vv : MapperEntry)
    (N : Nat) (K : Bytes) (h : indexMissing d db vv N K = true) :
    checkHistoryKey d db vv N K
      = Outcome.error (historyErrorText N (searchValue d db vv N K) K) := by
  unfold indexMissing at h
  unfold checkHistoryKey searchValue
  cases hl : db.GetIndexChunk vv.IndexBucket K N with
  | error e => rw [hl] at h; cases h
  | ok ib =>
    rw [hl] at h
    simp only at h ⊢
    simp only [Bool.not_eq_eq_eq_not, Bool.not_true] at h
    simp [h]

/-- The scan outcome, one pair at a time. -/
theorem scanOutcome_cons (d : HistoryDecls) (db : HistoryDB) (vv : MapperEntry)
    (p : Nat × Bytes) (rest : List (Nat × Bytes)) :
    scanOutcome d db vv (p :: rest) =
      match checkHistoryKey d db vv p.1 p.2 with
      | Outcome.success => scanOutcome d db vv rest
      | r => r := by
  unfold scanOutcome
  rw [List.find?_cons]
  cases hs : stopsAt d db vv p.1 p.2 with
  | false =>
    rw [(checkHistoryKey_success_iff d db vv p.1 p.2).mpr hs]
  | true =>
    simp only
    cases hk : checkHistoryKey d db vv p.1 p.2 with
    | success =>
      rw [(checkHistoryKey_success_iff d db vv p.1 p.2).mp hk] at hs
      cases hs
    | error msg => rfl
    | panic msg => rfl

/-- The scan outcome on a concatenation: the first list decides unless it
passes. -/
theorem scanOutcome_append (d : HistoryDecls) (db : HistoryDB) (vv : MapperEntry)
    (l₁ l₂ : List (Nat × Bytes)) :
    scanOutcome d db vv (l₁ ++ l₂) =
      match scanOutcome d db vv l₁ with
      | Outcome.success => scanOutcome d db vv l₂
      | r => r := by
  induction l₁ with
  | nil => rfl
  | cons p rest ih =>
    rw [List.cons_append, scanOutcome_cons, scanOutcome_cons, ih]
    cases checkHistoryKey d db vv p.1 p.2 <;> rfl

/-- Walking one change set at block `N` gives the scan outcome on its keys. -/
theorem walkChanges_eq (d : HistoryDecls) (db : HistoryDB) (vv : MapperEntry) (N : Nat)
    (cs : List Change) :
    walkChanges (fun key _ => checkHistoryKey d db vv N key) cs =
      scanOutcome d db vv (cs.map fun c => (N, c.Key)) := by
  induction cs with
  | nil => rfl
  | cons c rest ih =>
    rw [List.map_cons, scanOutcome_cons]
    unfold walkChanges
    rw [ih]

/-- Scanning entries with a decoder in place gives the scan outcome on their
keys in scan order. -/
theorem dbWalk_go_eq (d : HistoryDecls) (db : HistoryDB) (vv : MapperEntry)
    (w : Bytes → List Change) (es : List (Nat × Bytes)) :
    dbWalk.go (fun N v => checkHistoryEntry d db vv (some w) N v) es =
      scanOutcome d db vv (es.flatMap fun e => (w e.2).map fun c => (e.1, c.Key)) := by
  induction es with
  | nil => rfl
  | cons e rest ih =>
    rw [List.flatMap_cons, scanOutcome_append]
    unfold dbWalk.go
    simp only [checkHistoryEntry]
    rw [walkChanges_eq d db vv]
    cases h : scanOutcome d db vv ((w e.2).map fun c => (e.1, c.Key)) with
    | success => simpa using ih
    | error msg => rfl
    | panic msg => rfl

/-- The outcome of a scan depends only on the pairs whose chunk it looks up:
the pairs after the first one at which the scan ends play no part. -/
theorem scanOutcome_lookupsMade (d : HistoryDecls) (db : HistoryDB) (vv : MapperEntry) :
    ∀ keys : List (Nat × Bytes),
      scanOutcome d db vv (lookupsMade d db vv keys) = scanOutcome d db vv keys := by
  intro keys
  induction keys with
  | nil => rfl
  | cons p rest ih =>
    unfold lookupsMade
    cases hs : stopsAt d db vv p.1 p.2 with
    | true =>
      simp only [if_true]
      unfold scanOutcome
      rw [List.find?_cons, List.find?_cons]
      simp only [hs]
    | false =>
      simp only [Bool.false_eq_true, if_false]
      rw [scanOutcome_cons, scanOutcome_cons, ih]

/-- When none of the lookups a scan makes fails, its outcome is the verdict:
success, or the error for the first pair whose index entry is missing. -/
theorem scanOutcome_eq_verdict (d : HistoryDecls) (db : HistoryDB) (vv : MapperEntry) :
    ∀ keys : List (Nat × Bytes),
      (∀ p ∈ lookupsMade d db vv keys, lookupFails db vv p.1 p.2 = false) →
      scanOutcome d db vv keys = historyVerdict d db vv keys := by
  intro keys
  induction keys with
  | nil => intro _; rfl
  | cons p rest ih =>
    intro hlook
    unfold lookupsMade at hlook
    cases hs : stopsAt d db vv p.1 p.2 with
    | true =>
      rw [hs] at hlook
      have hlf : lookupFails db vv p.1 p.2 = false := hlook p (by simp)
      have hmiss : indexMissing d db vv p.1 p.2 = true := by
        unfold stopsAt at hs
        rw [hlf] at hs
        simpa using hs
      unfold scanOutcome historyVerdict
      rw [List.find?_cons, List.find?_cons]
      simp only [hs, hmiss]
      exact checkHistoryKey_of_missing d db vv p.1 p.2 hmiss
    | false =>
      rw [hs] at hlook
      have hmiss : indexMissing d db vv p.1 p.2 = false := by
        unfold stopsAt at hs
        cases hm : indexMissing d db vv p.1 p.2 with
        | false => rfl
        | true => rw [hm] at hs; simp at hs
      have hrest := ih (fun q hq => hlook q (by simp [hq]))
      unfold scanOutcome historyVerdict at hrest ⊢
      rw [List.find?_cons, List.find?_cons]
      simp only [hs, hmiss]
      exact hrest

/-- The verdict is an error exactly when some pair lacks its index entry. -/
theorem historyVerdict_error_iff (d : HistoryDecls) (db : HistoryDB) (vv : MapperEntry)
    (keys : List (Nat × Bytes)) :
    (∃ msg, historyVerdict d db vv keys = Outcome.error msg) ↔
      ∃ p ∈ keys, indexMissing d db vv p.1 p.2 = true := by
  unfold historyVerdict
  cases h : keys.find? fun p => indexMissing d db vv p.1 p.2 with
  | none =>
    rw [List.find?_eq_none] at h
    constructor
    · rintro ⟨msg, hmsg⟩
      cases hmsg
    · rintro ⟨p, hp, hmiss⟩
      exact absurd hmiss (h p hp)
  | some p =>
    simp only [Outcome.error.injEq, exists_eq', true_iff]
    exact ⟨p, List.mem_of_find?_eq_some h, by simpa using List.find?_some h⟩

/-- The error text starts with the block number in decimal and ends with the
key in hexadecimal. -/
theorem historyErrorText_cites (N f : Nat) (K : Bytes) :
    (toString N).data <+: (historyErrorText N f K).data ∧
    (Bytes2Hex K).data <:+ (historyErrorText N f K).data := by
  unfold historyErrorText
  simp only [String.data_append, List.append_assoc]
  refine ⟨List.prefix_append _ _, ?_⟩
  exact ⟨(toString N).data ++ ([','] ++ ((toString f).data ++ [','])), by
    simp only [List.append_assoc]⟩

/-- For one of the two handled buckets the variable `walker` holds the decoder
of that bucket. -/
theorem historyWalker_handled (d : HistoryDecls) (bucket : String)
    (hb : bucket = d.AccountChangeSetBucket2 ∨ bucket = d.StorageChangeSetBucket2) :
    historyWalker d bucket = some (bucketDecoder d bucket) := by
  unfold historyWalker bucketDecoder
  by_cases hs : d.StorageChangeSetBucket2 = bucket
  · simp [hs]
  · have ha : d.AccountChangeSetBucket2 = bucket := by
      rcases hb with hb | hb
      · exact hb.symm
      · exact absurd hb.symm hs
    simp [hs, ha]

/-- C3 (counterexample). The account bucket holds the key `aa` at block 3 and
the history index has no entry for it, yet `checkHistory` started at block 5
returns success: entries below the start block are not scanned. -/
theorem checkHistory_ignores_blocks_before_start :
    checkHistory sampleDecls (storeWithChangeAt 3) "ACS2" 5 = Outcome.success ∧
    (3, [0xAA, 0x01]) ∈ (storeWithChangeAt 3).bucket "ACS2" ∧
    (⟨[0xAA], [0x01]⟩ : Change) ∈ sampleDecls.AccountChangeSetBytes [0xAA, 0x01] ∧
    indexMissing sampleDecls (storeWithChangeAt 3) ⟨"hAT"⟩ 3 [0xAA] = true := by
  decide

/-- C3 (amended). For the account or the storage change-set bucket, with its
`Mapper` entry, and every start block, let `w` be the decoder `checkHistory`
reads the bucket with. Then `w` is the storage decoder for the storage bucket
and the account decoder for the account bucket. If none of the chunk lookups
the run makes fails, then `checkHistory` returns the verdict on the scanned
(block, key) pairs; it returns an error if and only if some change set
persisted in the bucket at a block `N` at or after the start block contains a
key `K` whose history-index search for `N` is not found; and the error is the
one for the first such pair in scan order, its text starting with `N` in
decimal and ending with `K` in hexadecimal. -/
theorem checkHistory_amended (d : HistoryDecls) (db : HistoryDB) (bucket : String)
    (vv : MapperEntry) (start : Nat)
    (hb : bucket = d.AccountChangeSetBucket2 ∨ bucket = d.StorageChangeSetBucket2)
    (hm : d.Mapper bucket = some vv)
    (hlook : ∀ p ∈ lookupsMade d db vv
        (scannedKeys db (bucketDecoder d bucket) bucket start),
      lookupFails db vv p.1 p.2 = false) :
    ∃ w, historyWalker d bucket = some w ∧
      (bucket = d.StorageChangeSetBucket2 → w = d.StorageChangeSetBytes) ∧
      (bucket = d.AccountChangeSetBucket2 → bucket ≠ d.StorageChangeSetBucket2 →
        w = d.AccountChangeSetBytes) ∧
      checkHistory d db bucket start
        = historyVerdict d db vv (scannedKeys db w bucket start) ∧
      ((∃ msg, checkHistory d db bucket start = Outcome.error msg) ↔
        ∃ e ∈ db.bucket bucket, start ≤ e.1 ∧
          ∃ c ∈ w e.2, indexMissing d db vv e.1 c.Key = true) ∧
      ∀ msg, checkHistory d db bucket start = Outcome.error msg →
        ∃ N K,
          (scannedKeys db w bucket start).find?
            (fun p => indexMissing d db vv p.1 p.2) = some (N, K) ∧
          msg = historyErrorText N (searchValue d db vv N K) K ∧
          (toString N).data <+: msg.data ∧ (Bytes2Hex K).data <:+ msg.data := by
  have hw := historyWalker_handled d bucket hb
  have hrun : checkHistory d db bucket start
      = historyVerdict d db vv (scannedKeys db (bucketDecoder d bucket) bucket start) := by
    rw [← scanOutcome_eq_verdict d db vv _ hlook]
    unfold checkHistory dbWalk
    simp only [hm, hw]
    exact dbWalk_go_eq d db vv (bucketDecoder d bucket) _
  refine ⟨bucketDecoder d bucket, hw, ?_, ?_, hrun, ?_, ?_⟩
  · intro h
    simp [bucketDecoder, h]
  · intro _ h
    have : ¬ d.StorageChangeSetBucket2 = bucket := fun e => h e.symm
    simp [bucketDecoder, this]
  · rw [hrun, historyVerdict_error_iff]
    unfold scannedKeys
    constructor
    · rintro ⟨p, hp, hmiss⟩
      rw [List.mem_flatMap] at hp
      obtain ⟨e, he, hpe⟩ := hp
      rw [List.mem_filter] at he
      rw [List.mem_map] at hpe
      obtain ⟨c, hc, rfl⟩ := hpe
      exact ⟨e, he.1, by simpa using he.2, c, hc, hmiss⟩
    · rintro ⟨e, he, hstart, c, hc, hmiss⟩
      refine ⟨(e.1, c.Key), ?_, hmiss⟩
      rw [List.mem_flatMap]
      exact ⟨e, List.mem_filter.mpr ⟨he, by simpa using hstart⟩,
        List.mem_map.mpr ⟨c, hc, rfl⟩⟩
  · intro msg hmsg
    rw [hrun] at hmsg
    unfold historyVerdict at hmsg
    cases hfind : (scannedKeys db (bucketDecoder d bucket) bucket start).find?
        fun p => indexMissing d db vv p.1 p.2 with
    | none =>
      rw [hfind] at hmsg
      cases hmsg
    | some p =>
      rw [hfind] at hmsg
      simp only [Outcome.error.injEq] at hmsg
      obtain ⟨N, K⟩ := p
      refine ⟨N, K, rfl, hmsg.symm, ?_⟩
      rw [← hmsg]
      exact historyErrorText_cites N _ K

/-- C3 (amended), at the scenario of the specification. In the account bucket
the key `aa` is persisted at block 5 with no index entry; scanned from block 5
the run returns the error `5,0,aa`, although the lookup for the later key `cc`
would fail and the key `dd` at block 3 has no chunk either. In the storage
bucket the key `0a0b`, read with the storage decoder, gives `5,0,0a0b`. -/
theorem checkHistory_amended_witness :
    checkHistory sampleDecls scenarioStore "ACS2" 5 = Outcome.error "5,0,aa" ∧
    checkHistory sampleDecls scenarioStore "SCS2" 5 = Outcome.error "5,0,0a0b" ∧
    lookupFails scenarioStore ⟨"hAT"⟩ 5 [0xCC] = true ∧
    lookupsMade sampleDecls scenarioStore ⟨"hAT"⟩
      (scannedKeys scenarioStore (bucketDecoder sampleDecls "ACS2") "ACS2" 5)
      = [(5, [0xAA])] ∧
    (∃ w, historyWalker sampleDecls "ACS2" = some w ∧
      ("ACS2" = sampleDecls.StorageChangeSetBucket2 →
        w = sampleDecls.StorageChangeSetBytes) ∧
      ("ACS2" = sampleDecls.AccountChangeSetBucket2 →
        "ACS2" ≠ sampleDecls.StorageChangeSetBucket2 →
        w = sampleDecls.AccountChangeSetBytes) ∧
      checkHistory sampleDecls scenarioStore "ACS2" 5
        = historyVerdict sampleDecls scenarioStore ⟨"hAT"⟩
            (scannedKeys scenarioStore w "ACS2" 5) ∧
      ((∃ msg, checkHistory sampleDecls scenarioStore "ACS2" 5
          = Outcome.error msg) ↔
        ∃ e ∈ scenarioStore.bucket "ACS2", 5 ≤ e.1 ∧
          ∃ c ∈ w e.2, indexMissing sampleDecls scenarioStore ⟨"hAT"⟩ e.1 c.Key = true) ∧
      ∀ msg, checkHistory sampleDecls scenarioStore "ACS2" 5
          = Outcome.error msg →
        ∃ N K,
          (scannedKeys scenarioStore w "ACS2" 5).find?
            (fun p => indexMissing sampleDecls scenarioStore ⟨"hAT"⟩ p.1 p.2)
              = some (N, K) ∧
          msg = historyErrorText N
            (searchValue sampleDecls scenarioStore ⟨"hAT"⟩ N K) K ∧
          (toString N).data <+: msg.data ∧ (Bytes2Hex K).data <:+ msg.data) ∧
    (∃ w, historyWalker sampleDecls "SCS2" = some w ∧
      ("SCS2" = sampleDecls.StorageChangeSetBucket2 →
        w = sampleDecls.StorageChangeSetBytes) ∧
      ("SCS2" = sampleDecls.AccountChangeSetBucket2 →
        "SCS2" ≠ sampleDecls.StorageChangeSetBucket2 →
        w = sampleDecls.AccountChangeSetBytes) ∧
      checkHistory sampleDecls scenarioStore "SCS2" 5
        = historyVerdict sampleDecls scenarioStore ⟨"hST"⟩
            (scannedKeys scenarioStore w "SCS2" 5) ∧
      ((∃ msg, checkHistory sampleDecls scenarioStore "SCS2" 5
          = Outcome.error msg) ↔
        ∃ e ∈ scenarioStore.bucket "SCS2", 5 ≤ e.1 ∧
          ∃ c ∈ w e.2, indexMissing sampleDecls scenarioStore ⟨"hST"⟩ e.1 c.Key = true) ∧
      ∀ msg, checkHistory sampleDecls scenarioStore "SCS2" 5
          = Outcome.error msg →
        ∃ N K,
          (scannedKeys scenarioStore w "SCS2" 5).find?
            (fun p => indexMissing sampleDecls scenarioStore ⟨"hST"⟩ p.1 p.2)
              = some (N, K) ∧
          msg = historyErrorText N
            (searchValue sampleDecls scenarioStore ⟨"hST"⟩ N K) K ∧
          (toString N).data <+: msg.data ∧ (Bytes2Hex K).data <:+ msg.data) :=
  ⟨by decide, by decide, by decide, by decide,
    checkHistory_amended sampleDecls scenarioStore "ACS2" ⟨"hAT"⟩ 5
      (Or.inl rfl) (by decide) (by decide),
    checkHistory_amended sampleDecls scenarioStore "SCS2" ⟨"hST"⟩ 5
      (Or.inr rfl) (by decide) (by decide)⟩

/-- C9 (counterexample). With a `Mapper` that lists a bucket other than the two
handled ones, `checkHistory` on that bucket does not return the
"unknown bucket type" error: it panics on the first scanned entry, because no
decoder was assigned, and returns success when nothing is scanned. -/
theorem checkHistory_mapped_unhandled_bucket :
    "PLAIN-ACS" ≠ sampleDecls.AccountChangeSetBucket2 ∧
    "PLAIN-ACS" ≠ sampleDecls.StorageChangeSetBucket2 ∧
    checkHistory sampleDecls (storeWithChangeAt 5) "PLAIN-ACS" 5
      = Outcome.panic "call of nil function" ∧
    checkHistory sampleDecls (storeWithChangeAt 5) "PLAIN-ACS" 6 = Outcome.success := by
  decide

/-- C9 (amended). For every bucket name that has no entry in `Mapper`,
`checkHistory` returns the "unknown bucket type" error whatever the store
holds and whatever the start block is. -/
theorem checkHistory_unknown_bucket (d : HistoryDecls) (db : HistoryDB)
    (bucket : String) (start : Nat) (hm : d.Mapper bucket = none) :
    checkHistory d db bucket start = Outcome.error "unknown bucket type" := by
  unfold checkHistory
  simp only [hm]

/-- C9 (amended), at a concrete input: the bucket name `CST` has no `Mapper`
entry. -/
theorem checkHistory_unknown_bucket_witness :
    sampleDecls.Mapper "CST" = none ∧
    checkHistory sampleDecls (storeWithChangeAt 5) "CST" 5
      = Outcome.error "unknown bucket type" :=
  ⟨by decide, checkHistory_unknown_bucket sampleDecls (storeWithChangeAt 5) "CST" 5
    (by decide)⟩

/-! ## Theorems: `CheckChangeSets` -/

/-- Incrementing a block number below `2 ^ 64 - 1` does not wrap. -/
theorem addU64_one (b : Nat) (h : b + 1 < U64) : addU64 b 1 = b + 1 := by
  unfold addU64
  exact Nat.mod_eq_of_lt h

/-- One turn of the loop. -/
theorem replayLoop_succ (env : ReplayEnv) (nocheck writeReceipts : Bool)
    (fuel n blockNum : Nat) (batch : Batch) :
    replayLoop env nocheck writeReceipts (fuel + 1) n blockNum batch =
      match env.GetBlockByNumber blockNum with
      | none => some (finishReplay env writeReceipts blockNum batch)
      | some block =>
        match checkBlock env nocheck writeReceipts blockNum block batch with
        | (Outcome.success, batch) =>
          if env.interruptCh n then
            some (finishReplay env writeReceipts (addU64 blockNum 1) batch)
          else replayLoop env nocheck writeReceipts fuel (n + 1) (addU64 blockNum 1) batch
        | (err, batch) => some ⟨err, blockNum, batch⟩ := rfl

/-- The loop walks over a prefix of blocks processed without error and without
interrupt. -/
theorem replayLoop_advance (env : ReplayEnv) (nocheck writeReceipts : Bool) (fuel : Nat) :
    ∀ (j n b : Nat) (batch batch' : Batch), b + j < U64 →
      processBlocks env nocheck writeReceipts j b batch = some batch' →
      (∀ i, i < j → env.interruptCh (n + i) = false) →
      replayLoop env nocheck writeReceipts (fuel + j) n b batch
        = replayLoop env nocheck writeReceipts fuel (n + j) (b + j) batch' := by
  intro j
  induction j with
  | zero =>
    intro n b batch batch' _ hproc _
    simp only [processBlocks, Option.some.injEq] at hproc
    subst hproc
    rfl
  | succ j ih =>
    intro n b batch batch' hlt hproc hquiet
    have hb1 : addU64 b 1 = b + 1 := addU64_one b (by omega)
    unfold processBlocks at hproc
    rw [show fuel + (j + 1) = (fuel + j) + 1 from rfl, replayLoop_succ]
    cases hblock : env.GetBlockByNumber b with
    | none => rw [hblock] at hproc; cases hproc
    | some block =>
      rw [hblock] at hproc
      simp only at hproc ⊢
      rcases hcb : checkBlock env nocheck writeReceipts b block batch with ⟨r, batch₁⟩
      rw [hcb] at hproc
      cases r with
      | success =>
        simp only at hproc ⊢
        have h0 : env.interruptCh n = false := by simpa using hquiet 0 (by omega)
        rw [hb1] at hproc ⊢
        simp only [h0, Bool.false_eq_true, if_false]
        have := ih (n + 1) (b + 1) batch₁ batch' (by omega) hproc
          (fun i hi => by
            have := hquiet (i + 1) (by omega)
            rwa [show n + (i + 1) = n + 1 + i by omega] at this)
        rw [this, Nat.add_right_comm n 1 j, Nat.add_right_comm b 1 j]
        rfl
      | error msg => simp at hproc
      | panic msg => simp at hproc

/-- What a successful `processBlocks` of at least one block says about the
first block. -/
theorem processBlocks_succ_some (env : ReplayEnv) (nocheck writeReceipts : Bool)
    (j b : Nat) (batch batch' : Batch)
    (hproc : processBlocks env nocheck writeReceipts (j + 1) b batch = some batch') :
    ∃ block batch₁, env.GetBlockByNumber b = some block ∧
      checkBlock env nocheck writeReceipts b block batch = (Outcome.success, batch₁) ∧
      processBlocks env nocheck writeReceipts j (addU64 b 1) batch₁ = some batch' := by
  unfold processBlocks at hproc
  cases hblock : env.GetBlockByNumber b with
  | none => rw [hblock] at hproc; cases hproc
  | some block =>
    rw [hblock] at hproc
    simp only at hproc
    rcases hcb : checkBlock env nocheck writeReceipts b block batch with ⟨r, batch₁⟩
    rw [hcb] at hproc
    cases r with
    | success => exact ⟨block, batch₁, rfl, hcb, hproc⟩
    | error msg => simp at hproc
    | panic msg => simp at hproc

/-- The loop, interrupted after the last of `j + 1` blocks processed without
error, runs the closing statements with the next block number. -/
theorem replayLoop_interrupt (env : ReplayEnv) (nocheck writeReceipts : Bool) (fuel : Nat) :
    ∀ (j n b : Nat) (batch batch' : Batch), b + j + 1 < U64 →
      processBlocks env nocheck writeReceipts (j + 1) b batch = some batch' →
      (∀ i, i < j → env.interruptCh (n + i) = false) →
      env.interruptCh (n + j) = true →
      replayLoop env nocheck writeReceipts (fuel + j + 1) n b batch
        = some (finishReplay env writeReceipts (b + j + 1) batch') := by
  intro j
  induction j with
  | zero =>
    intro n b batch batch' hlt hproc _ hint
    obtain ⟨block, batch₁, hblock, hcb, hrest⟩ :=
      processBlocks_succ_some env nocheck writeReceipts 0 b batch batch' hproc
    simp only [processBlocks, Option.some.injEq] at hrest
    subst hrest
    rw [replayLoop_succ, hblock]
    simp only [hcb]
    rw [addU64_one b (by omega)]
    simp only [Nat.add_zero] at hint
    simp [hint]
  | succ j ih =>
    intro n b batch batch' hlt hproc hquiet hint
    obtain ⟨block, batch₁, hblock, hcb, hrest⟩ :=
      processBlocks_succ_some env nocheck writeReceipts (j + 1) b batch batch' hproc
    rw [addU64_one b (by omega)] at hrest
    rw [show fuel + (j + 1) + 1 = (fuel + j + 1) + 1 from rfl, replayLoop_succ, hblock]
    simp only [hcb]
    rw [addU64_one b (by omega)]
    have h0 : env.interruptCh n = false := by simpa using hquiet 0 (by omega)
    simp only [h0, Bool.false_eq_true, if_false]
    rw [ih (n + 1) (b + 1) batch₁ batch' (by omega) hrest
      (fun i hi => by
        have := hquiet (i + 1) (by omega)
        rwa [show n + (i + 1) = n + 1 + i by omega] at this)
      (by rwa [show n + 1 + j = n + (j + 1) by omega])]
    rw [show b + 1 + j + 1 = b + (j + 1) + 1 by omega]

/-- C7 (counterexample). Block 2 of the concrete environment lies before the
Byzantium fork and its recomputed receipt digest 102 differs from the digest 0
in its header; the run from block 2 with receipt writing returns success and
the batch holds the receipts of block 2. -/
theorem CheckChangeSets_pre_byzantium_mismatch_passes :
    (sampleEnv 10 none 99).IsByzantium 2 = false ∧
    (sampleEnv 10 none 99).DeriveSha [2] ≠ 0 ∧
    CheckChangeSets (sampleEnv 10 none 99) 5 2 true true
      = some ⟨Outcome.success, 4, ⟨[(2, [2]), (3, [3])], 0, 2⟩⟩ := by
  decide

/-- C7 (amended). In a run started at block `b` whose first `j` blocks were
processed without error and without interrupt, if block `b + j` is a Byzantium
block whose recomputed receipt digest differs from the digest in its header,
`CheckChangeSets` returns the error "mismatched receipt headers for block N"
with `N` the number of that block, and the batch is the one left by the first
`j` blocks: no receipts of block `b + j` are written. -/
theorem CheckChangeSets_receipt_mismatch (env : ReplayEnv) (nocheck writeReceipts : Bool)
    (b j fuel : Nat) (batch : Batch) (block : Block) (receipts : Receipts)
    (hsetup : env.setup = Outcome.success) (hlt : b + j < U64)
    (hproc : processBlocks env nocheck writeReceipts j b Batch.new = some batch)
    (hquiet : ∀ i, i < j → env.interruptCh i = false)
    (hblock : env.GetBlockByNumber (b + j) = some block)
    (hrun : env.runBlock block = Except.ok receipts)
    (hbyz : env.IsByzantium block.NumberU64 = true)
    (hne : env.DeriveSha receipts ≠ block.ReceiptHash)
    (hfuel : j < fuel) :
    CheckChangeSets env fuel b nocheck writeReceipts
      = some ⟨Outcome.error ("mismatched receipt headers for block " ++
          toString block.NumberU64), b + j, batch⟩ := by
  obtain ⟨f, rfl⟩ : ∃ f, fuel = (f + 1) + j := ⟨fuel - j - 1, by omega⟩
  unfold CheckChangeSets
  rw [hsetup]
  simp only
  rw [replayLoop_advance env nocheck writeReceipts (f + 1) j 0 b Batch.new batch hlt hproc
    (fun i hi => by simpa using hquiet i hi)]
  rw [replayLoop_succ, hblock]
  simp only [checkBlock, hrun, hbyz, hne, ne_eq, not_false_eq_true, and_self, if_true,
    receiptErrorText]

/-- C7 (amended), at a concrete input: with the fork at block 0, the run from
block 1 processes block 1 and stops at block 2 with the receipts of block 1
only. -/
theorem CheckChangeSets_receipt_mismatch_witness :
    CheckChangeSets (sampleEnv 0 none 99) 5 1 true true
      = some ⟨Outcome.error ("mismatched receipt headers for block " ++
          toString (2 : Nat)), 1 + 1, ⟨[(1, [1])], 1, 0⟩⟩ :=
  CheckChangeSets_receipt_mismatch (sampleEnv 0 none 99) true true 1 1 5
    ⟨[(1, [1])], 1, 0⟩ ⟨2, 0⟩ [2] rfl (by decide) (by decide) (by decide) (by decide)
    rfl (by decide) (by decide) (by decide)

/-- C8 (defect in the code). With checking enabled, block 3 of the concrete
environment has the persisted storage change set `[(01, 01), (02, ff)]` while
re-execution captured `[(01, 01), (02, 02)]`: they differ at index 1. The
storage visitor returns `false` on the matching first entry, which stops the
scan, and `CheckChangeSets` returns success. -/
theorem CheckChangeSets_storage_mismatch_undetected :
    (sampleEnv 10 none 99).plainStorageChangeSet 3
      ≠ (sortByKey ⟨[⟨[1], [1]⟩, ⟨[2], [2]⟩]⟩).Changes ∧
    compareChangeSets (sampleEnv 10 none 99) 3 ⟨3, 103⟩ = Outcome.success ∧
    CheckChangeSets (sampleEnv 10 none 99) 5 3 false false
      = some ⟨Outcome.success, 4, Batch.new⟩ := by
  decide

/-- C10 (counterexample). The interrupt is observed after the first block of a
run from block 1, processed without error, with receipt writing enabled; the
final commit fails and `CheckChangeSets` returns that error, not success. -/
theorem CheckChangeSets_interrupt_commit_fails :
    processBlocks (sampleEnv 10 (some "commit failed") 0) false true 1 1 Batch.new
      = some ⟨[(1, [1])], 1, 0⟩ ∧
    (sampleEnv 10 (some "commit failed") 0).interruptCh 0 = true ∧
    CheckChangeSets (sampleEnv 10 (some "commit failed") 0) 5 1 false true
      = some ⟨Outcome.error "commit failed", 2, ⟨[(1, [1])], 1, 0⟩⟩ := by
  decide

/-- C10 (amended). For every start block `b` and every `k ≥ 1` with
`b + k < 2 ^ 64`: if the first `k` blocks are processed without error, the
interrupt is observed after the `k`-th block and not before, and the final
commit does not fail when receipt writing is enabled, then the run returns
success, the batch is the one left by exactly the blocks `b .. b + k - 1`
with every write committed when receipt writing is enabled, and the block
reported to resume from is `b + k`. -/
theorem CheckChangeSets_interrupt (env : ReplayEnv) (nocheck writeReceipts : Bool)
    (b k fuel : Nat) (batch : Batch)
    (hsetup : env.setup = Outcome.success) (hk : 1 ≤ k) (hlt : b + k < U64)
    (hproc : processBlocks env nocheck writeReceipts k b Batch.new = some batch)
    (hquiet : ∀ i, i < k - 1 → env.interruptCh i = false)
    (hint : env.interruptCh (k - 1) = true)
    (hcommit : writeReceipts = true → env.commitErr = none)
    (hfuel : k ≤ fuel) :
    CheckChangeSets env fuel b nocheck writeReceipts
      = some ⟨Outcome.success, b + k,
          if writeReceipts then ⟨batch.written, 0, batch.written.length⟩ else batch⟩ := by
  obtain ⟨j, rfl⟩ : ∃ j, k = j + 1 := ⟨k - 1, by omega⟩
  obtain ⟨f, rfl⟩ : ∃ f, fuel = f + j + 1 := ⟨fuel - j - 1, by omega⟩
  unfold CheckChangeSets
  rw [hsetup]
  simp only
  rw [replayLoop_interrupt env nocheck writeReceipts f j 0 b Batch.new batch (by omega) hproc
    (fun i hi => by simpa using hquiet i (by omega)) (by simpa using hint)]
  unfold finishReplay
  cases writeReceipts with
  | false => rfl
  | true => simp [hcommit rfl, Nat.add_assoc]

/-- C10 (amended), at a concrete input: the run from block 1 interrupted after
its second block, with receipt writing enabled. -/
theorem CheckChangeSets_interrupt_witness :
    CheckChangeSets (sampleEnv 10 none 1) 5 1 false true
      = some ⟨Outcome.success, 1 + 2,
          if true then
            ⟨(⟨[(1, [1]), (2, [2])], 0, 2⟩ : Batch).written, 0,
              (⟨[(1, [1]), (2, [2])], 0, 2⟩ : Batch).written.length⟩
          else ⟨[(1, [1]), (2, [2])], 0, 2⟩⟩ :=
  CheckChangeSets_interrupt (sampleEnv 10 none 1) false true 1 2 5
    ⟨[(1, [1]), (2, [2])], 0, 2⟩ rfl (by decide) (by decide) (by decide) (by decide)
    (by decide) (fun _ => rfl) (by decide)

end TurboGeth
